import Mathlib

/-!
Verification of the OPAL `Extractor` query engine (src/opal/views/core.py).

The development shallowly embeds the extraction pipeline: criterion
dispatch (`episodes_for_criteria`), the kind-specific resolvers for
boolean, date, hybrid (foreign-key-or-free-text) and plain fields, the
record store they query, and the set-algebra fold (`get_episodes`).
Episode and Patient identifiers are natural numbers; the Django ORM's
query-set filters are modelled as list filters over explicitly stored
subrecord rows, with join multiplicity preserved (an Episode appears once
per matching subrecord row, as an un-`distinct` ORM join does).
-/

/-- ASCII lower-casing of one character, modelling how Python's `str.lower`
acts on the characters that occur in column, field and lookup-value names. -/
def chLower (c : Char) : Char :=
  if 'A' ≤ c && c ≤ 'Z' then Char.ofNat (c.toNat + 32) else c

/-- Model of Python's `str.lower()`. -/
def strLower (s : String) : String :=
  ⟨s.data.map chLower⟩

/-- Model of Python's `str.replace(old, new)` for a single-character `old`
pattern — the only form the source uses (replacing a space by an underscore,
or deleting spaces / underscores). -/
def strReplace (s : String) (old : Char) (new : List Char) : String :=
  ⟨s.data.flatMap fun c => if c == old then new else [c]⟩

/-- Boolean prefix test on character lists (helper for substring matching). -/
def isPrefixB : List Char → List Char → Bool
  | [], _ => true
  | _ :: _, [] => false
  | a :: as, b :: bs => a == b && isPrefixB as bs

/-- Boolean contiguous-substring test on character lists. -/
def isInfixB (pat : List Char) : List Char → Bool
  | [] => isPrefixB pat []
  | c :: t => isPrefixB pat (c :: t) || isInfixB pat t

/-- The two Django string-comparison suffixes the view uses: `__iexact`
(case-insensitive equality) and `__icontains` (case-insensitive substring).
`episodes_for_criteria` picks `icontains` exactly when the criterion's
`queryType` is `"Contains"`. -/
inductive ContainsKind
  | iexact
  | icontains
  deriving DecidableEq, Repr

/-- Case-insensitive field match: `strMatch kind data pattern` models the ORM
filter `field{__iexact|__icontains}: pattern` applied to a stored value. -/
def strMatch : ContainsKind → String → String → Bool
  | .iexact, data, pat => strLower data == strLower pat
  | .icontains, data, pat => isInfixB (strLower pat).data (strLower data).data

/-- A calendar date as `datetime.strptime` produces it. -/
structure PyDate where
  year : Nat
  month : Nat
  day : Nat
  deriving DecidableEq, Repr

/-- Chronological order on dates (year, then month, then day). -/
def dateLe (a b : PyDate) : Bool :=
  a.year < b.year ||
    (a.year == b.year &&
      (a.month < b.month || (a.month == b.month && a.day ≤ b.day)))

/-- Splitting of a character list on a separator, as Python's `str.split`. -/
def splitOnCh (sep : Char) : List Char → List (List Char)
  | [] => [[]]
  | c :: rest =>
    if c == sep then [] :: splitOnCh sep rest
    else
      match splitOnCh sep rest with
      | [] => [[c]]
      | h :: t => (c :: h) :: t

/-- Decimal interpretation of a non-empty all-digit character list. -/
def parseNatChars (l : List Char) : Option Nat :=
  if l.isEmpty then none
  else if l.all Char.isDigit then
    some (l.foldl (fun n c => n * 10 + (c.toNat - 48)) 0)
  else none

/-- Model of `datetime.datetime.strptime(s, "%d/%m/%Y")`: day, month and year
separated by slashes, in day/month/year order; `none` models the `ValueError`
raised on malformed input. -/
def parseDate (s : String) : Option PyDate :=
  match splitOnCh '/' s.data with
  | [d, m, y] =>
    match parseNatChars d, parseNatChars m, parseNatChars y with
    | some dd, some mm, some yy =>
      if 1 ≤ dd && dd ≤ 31 && 1 ≤ mm && mm ≤ 12 then
        some ⟨yy, mm, dd⟩
      else none
    | _, _, _ => none
  | _ => none

/-- One stored subrecord row. `owner` is the Episode id (for Episode-scoped
models) or the Patient id (for Patient-scoped models). Field values are kept
in per-kind association lists; a missing key models a NULL / absent value.
For a hybrid field `f`, `fks` holds the name of the foreign-key target
(the ORM path `f_fk__name`) and `fts` holds the free-text fallback
(the ORM path `f_ft`). -/
structure SubRow where
  owner : Nat
  bools : List (String × Bool) := []
  dates : List (String × PyDate) := []
  fks : List (String × String) := []
  fts : List (String × String) := []
  plains : List (String × String) := []
  deriving DecidableEq, Repr

/-- A registered Django model: its class name, whether it subclasses
`EpisodeSubrecord` / `PatientSubrecord`, which of its fields are
`BooleanField`s / `DateField`s / `ForeignKeyOrFreeText` descriptors
(each hybrid field paired with the content type of its foreign model,
used for Synonym lookup), and its stored rows. -/
structure ModelDef where
  name : String
  isEpisodeSub : Bool := false
  isPatientSub : Bool := false
  boolFields : List String := []
  dateFields : List String := []
  fkorftFields : List (String × String) := []
  rows : List SubRow := []
  deriving DecidableEq, Repr

/-- The record store the view queries. `episodes` pairs each Episode id with
the id of the Patient that owns it. `synonyms` holds
`(content type, alias name, canonical name)` triples, the Synonym table.
`taggings` holds `(episode id, tag name, currently active)` triples: the full
tagging history, where `false` marks a historical (deleted) tagging. -/
structure DB where
  episodes : List (Nat × Nat) := []
  models : List ModelDef := []
  synonyms : List (String × String × String) := []
  taggings : List (Nat × String × Bool) := []
  deriving DecidableEq, Repr

/-- A filter criterion as submitted by the client: the JSON object with keys
`column`, `field`, `queryType`, `query` and `combine`. -/
structure Criterion where
  column : String
  field : String
  queryType : String
  query : String
  combine : String
  deriving DecidableEq, Repr

/-- Model of `models.Episode.objects.filter(**{rel__...: ...})`: the reverse
relation named `rel` must be the lowercased class name of a registered
Episode-scoped model, otherwise Django raises a `FieldError`; each subrecord
row satisfying the predicate contributes its owning Episode once (join
multiplicity, no `distinct()`). -/
def episodeFilterRows (db : DB) (rel : String) (pred : SubRow → Bool) :
    Except String (List Nat) :=
  match db.models.find? (fun m => strLower m.name == rel && m.isEpisodeSub) with
  | none => .error ("FieldError: " ++ rel)
  | some M => .ok (M.rows.filterMap fun r => if pred r then some r.owner else none)

/-- Model of `models.Patient.objects.filter(**{rel__...: ...})`, analogous to
`episodeFilterRows` but over Patient-scoped models, returning Patient ids. -/
def patientFilterRows (db : DB) (rel : String) (pred : SubRow → Bool) :
    Except String (List Nat) :=
  match db.models.find? (fun m => strLower m.name == rel && m.isPatientSub) with
  | none => .error ("FieldError: " ++ rel)
  | some M => .ok (M.rows.filterMap fun r => if pred r then some r.owner else none)

/-- Model of `p.episode_set.all()`: all Episodes owned by Patient `p`. -/
def episode_set (db : DB) (p : Nat) : List Nat :=
  db.episodes.filterMap fun ep => if ep.2 == p then some ep.1 else none

/-- Model of the expansion loop `eps = []; for p in pats: eps +=
list(p.episode_set.all())` (src lines 376-378 and 430-432): Patient matches
expanded to the concatenation of each matched Patient's Episodes. -/
def expandPatients (db : DB) (pats : List Nat) : List Nat :=
  pats.flatMap (episode_set db)

/-- Model of Python's `set(...)` materialisation of a list: duplicates
removed (first occurrence kept). -/
def pySet (l : List Nat) : List Nat := l.dedup

/-- Model of `a.intersection(b)` on Python sets. -/
def pyIntersection (a b : List Nat) : List Nat :=
  a.filter fun x => b.contains x

/-- Model of `a.union(b)` on Python sets. -/
def pyUnion (a b : List Nat) : List Nat :=
  a ++ b.filter fun x => !a.contains x

/-- Model of `a.difference(b)` on Python sets. -/
def pyDifference (a b : List Nat) : List Nat :=
  a.filter fun x => !b.contains x

/-- `Extractor._episodes_for_boolean_fields` (src lines 331-336): the value is
truthy exactly when the literal equals `"true"` (case-sensitive `==`), and the
filter runs on `Episode.objects` through the relation named by the column with
spaces and underscores removed, lowercased. -/
def episodes_for_boolean_fields (db : DB) (q : Criterion) (field : String) :
    Except String (List Nat) :=
  let model := strLower (strReplace q.column ' ' ['_'])
  let val := q.query == "true"
  episodeFilterRows db (strReplace model '_' [])
    (fun r => r.bools.lookup field == some val)

/-- `Extractor._episodes_for_date_fields` (src lines 338-348): the value is
parsed as `%d/%m/%Y`; `queryType = "Before"` filters with `__lte`,
`"After"` with `__gte`, anything else with exact equality; the filter runs on
`Episode.objects` through the relation named by the column with spaces
removed and lowercased (underscores kept). -/
def episodes_for_date_fields (db : DB) (q : Criterion) (field : String) :
    Except String (List Nat) :=
  let model := strLower (strReplace q.column ' ' [])
  match parseDate q.query with
  | none => .error "ValueError: time data does not match format %d/%m/%Y"
  | some val =>
    episodeFilterRows db model fun r =>
      match r.dates.lookup field with
      | some d =>
        if q.queryType == "Before" then dateLe d val
        else if q.queryType == "After" then dateLe val d
        else d == val
      | none => false

/-- Model of `Synonym.objects.get(content_type=ct, name=name)` wrapped in the
`try/except Synonym.DoesNotExist` of src lines 356-361: the canonical name
when the alias is found, `none` otherwise. -/
def lookupSynonym (db : DB) (vocab name : String) : Option String :=
  (db.synonyms.find? fun t => t.1 == vocab && t.2.1 == name).map fun t => t.2.2

/-- Model of `ContentType.objects.get_for_model(getattr(Mod, field).foreign_model)`
(src line 354): the content type recorded for the hybrid field. -/
def vocabOf (M : ModelDef) (field : String) : String :=
  ((M.fkorftFields.find? fun p => p.1 == field).map Prod.snd).getD ""

/-- The foreign-key half of the hybrid filter (src line 363): the ORM lookup
`field_fk__name{__iexact|__icontains}: name`. -/
def fkPredOf (field : String) (contains : ContainsKind) (name : String) :
    SubRow → Bool :=
  fun r =>
    match r.fks.lookup field with
    | some fkname => strMatch contains fkname name
    | none => false

/-- The free-text half of the hybrid filter (src line 364): the ORM lookup
`field_ft{__iexact|__icontains}: value`. -/
def ftPredOf (field : String) (contains : ContainsKind) (value : String) :
    SubRow → Bool :=
  fun r =>
    match r.fts.lookup field with
    | some ft => strMatch contains ft value
    | none => false

/-- `Extractor._episodes_for_fkorft_fields` (src lines 350-379): substitute a
Synonym's canonical name if the value is a known alias, then filter the
foreign-key name path (`field_fk__name`) against the substituted name and the
free-text path (`field_ft`) against the ORIGINAL `query['query']` literal,
union the two (as a Python set). Episode-scoped models filter
`Episode.objects`; Patient-scoped models filter `Patient.objects` and expand
each matched Patient to its Episodes; any other model leaves `eps` unassigned
(an `UnboundLocalError` at `return eps`). -/
def episodes_for_fkorft_fields (db : DB) (q : Criterion) (field : String)
    (contains : ContainsKind) (M : ModelDef) : Except String (List Nat) :=
  let model := strLower (strReplace q.column ' ' ['_'])
  let name :=
    match lookupSynonym db (vocabOf M field) q.query with
    | some canonical => canonical
    | none => q.query
  let rel := strReplace model '_' []
  if M.isEpisodeSub then
    match episodeFilterRows db rel (fkPredOf field contains name),
        episodeFilterRows db rel (ftPredOf field contains q.query) with
    | .ok qsFk, .ok qsFt => .ok (pySet (qsFk ++ qsFt))
    | .error e, _ => .error e
    | _, .error e => .error e
  else if M.isPatientSub then
    match patientFilterRows db rel (fkPredOf field contains name),
        patientFilterRows db rel (ftPredOf field contains q.query) with
    | .ok qsFk, .ok qsFt => .ok (expandPatients db (pySet (qsFk ++ qsFt)))
    | .error e, _ => .error e
    | _, .error e => .error e
  else .error "UnboundLocalError: eps"

/-- Modelled from the spec: `opal.models.Tagging` (opal/models.py, not under
src/). Per the spec's glossary, Tagging is a many-to-many relation between
Episodes and named teams; it declares no boolean, date or hybrid query fields
of its own, so dispatch on the virtual `Tags` type falls through to the
generic branch that is special-cased on `Mod == models.Tagging`. -/
def taggingModel : ModelDef :=
  { name := "Tagging" }

/-- Modelled from the spec: `Episode.objects.ever_tagged(tag)`
(opal/models.py, not under src/) returns the Episodes that have ever carried
the named tag, including historical taggings that are no longer active — the
active flag of a tagging row is ignored. -/
def ever_tagged (db : DB) (tag : String) : List Nat :=
  db.taggings.filterMap fun t => if t.2.1 == tag then some t.1 else none

/-- The matched-value predicate for the generic (plain string) branch of
`episodes_for_criteria` (src line 421): `field{__iexact|__icontains}: value`
on an ordinary stored field. -/
def plainPred (field : String) (contains : ContainsKind) (value : String) :
    SubRow → Bool :=
  fun r =>
    match r.plains.lookup field with
    | some s => strMatch contains s value
    | none => false

/-- The model-resolution loop of `episodes_for_criteria` (src lines 396-403):
scan all registered models for a lowercased class name equal to the processed
column; the first match is kept unless a later match subclasses
`EpisodeSubrecord` or `PatientSubrecord`, which overrides it. -/
def resolveMod (ms : List ModelDef) (model_name : String) : Option ModelDef :=
  ms.foldl
    (fun acc m =>
      if strLower m.name == model_name then
        match acc with
        | none => some m
        | some _ => if m.isEpisodeSub || m.isPatientSub then some m else acc
      else acc)
    none

/-- `Extractor.episodes_for_criteria` (src lines 381-433): choose the
comparison kind from `queryType`, resolve the column to a model (the virtual
name `tags` maps to `Tagging`), then dispatch on the named field: a
`BooleanField` or `DateField` goes to the corresponding resolver, a
`ForeignKeyOrFreeText` descriptor to the hybrid resolver, and anything else
to the generic branch (Tagging → `ever_tagged` on the RAW field string;
Episode-scoped → Episode filter; Patient-scoped → Patient filter expanded to
Episodes; otherwise `eps` is unassigned — `UnboundLocalError`). -/
def episodes_for_criteria (db : DB) (q : Criterion) : Except String (List Nat) :=
  let contains : ContainsKind :=
    if q.queryType == "Contains" then .icontains else .iexact
  let model_name := strReplace (strReplace q.column ' ' []) '_' []
  let mod1 :=
    if strLower model_name == "tags" then some taggingModel
    else resolveMod db.models model_name
  match mod1 with
  | none => .error "AttributeError: NoneType object has no attribute _meta"
  | some M =>
    let field := strLower (strReplace q.field ' ' ['_'])
    if M.boolFields.contains field then
      episodes_for_boolean_fields db q field
    else if M.dateFields.contains field then
      episodes_for_date_fields db q field
    else if (M.fkorftFields.map Prod.fst).contains field then
      episodes_for_fkorft_fields db q field contains M
    else if M.name == "Tagging" then
      .ok (ever_tagged db q.field)
    else if M.isEpisodeSub then
      episodeFilterRows db model_name (plainPred field contains q.query)
    else if M.isPatientSub then
      match patientFilterRows db model_name (plainPred field contains q.query) with
      | .error e => .error e
      | .ok pats => .ok (expandPatients db pats)
    else .error "UnboundLocalError: eps"

/-- One entry of the `all_matches` comprehension of `get_episodes` (src line
437): the criterion's combinator paired with its resolved Episodes. -/
def criterionMatch (db : DB) (q : Criterion) :
    Except String (String × List Nat) :=
  (episodes_for_criteria db q).map fun eps => (q.combine, eps)

/-- The `all_matches` list comprehension itself: left-to-right, the first
resolution failure aborts the whole query. -/
def mapMatches (db : DB) : List Criterion → Except String (List (String × List Nat))
  | [] => .ok []
  | q :: qs => do
    let p ← criterionMatch db q
    let ps ← mapMatches db qs
    .ok (p :: ps)

/-- One step of the combination loop (src lines 444-446):
`working = getattr(set(episodes), methods[combine])(working)` — note the
receiver is THIS pair's set, so `not` computes `set(episodes) - working`.
An unknown combinator raises `KeyError` on the `methods` dict. -/
def combineStep (working : List Nat) (ce : String × List Nat) :
    Except String (List Nat) :=
  if ce.1 == "and" then .ok (pyIntersection (pySet ce.2) working)
  else if ce.1 == "or" then .ok (pyUnion (pySet ce.2) working)
  else if ce.1 == "not" then .ok (pyDifference (pySet ce.2) working)
  else .error "KeyError"

/-- `Extractor.get_episodes` (src lines 435-449): resolve every criterion,
return `[]` for the empty query, otherwise seed the fold with the first
pair's set and combine the rest in order with `combineStep`. -/
def get_episodes (db : DB) (query : List Criterion) : Except String (List Nat) :=
  match mapMatches db query with
  | .error e => .error e
  | .ok [] => .ok []
  | .ok (first :: rest) => rest.foldlM combineStep (pySet first.2)

/-- `DownloadSearchView.post` (src lines 479-487): run the extraction, hand
the matched Episodes to the external CSV/archive writer `json_to_csv`
(opal/utils, not under src/ — passed here as an opaque collaborator returning
the written file's name or an error), then serve that file. No exception
handling wraps the writer call, so a writer failure propagates. -/
def downloadSearchViewPost (db : DB) (criteria : List Criterion)
    (writer : List Nat → Except String String) : Except String String := do
  let eps ← get_episodes db criteria
  let fname ← writer eps
  pure fname

/-- Follows the spec's words for the Result Combinator (spec §4.3), stated
for comparison with `get_episodes`: a left fold seeded by the first pair's
set (its own combinator ignored); `and` → intersection, `or` → union,
`not` → the ACCUMULATED set minus this pair's set. -/
def combineSpecFold : List (String × List Nat) → List Nat
  | [] => []
  | first :: rest =>
    rest.foldl
      (fun working ce =>
        if ce.1 == "and" then pyIntersection working (pySet ce.2)
        else if ce.1 == "or" then pyUnion working (pySet ce.2)
        else pyDifference working (pySet ce.2))
      (pySet first.2)

/-- The combination fold restated on finite sets, used to express what
`get_episodes` actually computes: `and` → `∩`, `or` → `∪`, `not` → this
pair's set minus the accumulated set. -/
def foldFinset (seed : Finset Nat) : List (String × Finset Nat) → Finset Nat
  | [] => seed
  | (c, s) :: rest =>
    foldFinset
      (if c == "and" then seed ∩ s
       else if c == "or" then seed ∪ s
       else s \ seed)
      rest

/-- Row-wise agreement of the free-text match under two query literals: true
when the row either stores no free-text value for the field or stores one
that matches literal `a` exactly when it matches literal `b`. -/
def ftAgrees (field : String) (contains : ContainsKind) (a b : String)
    (r : SubRow) : Bool :=
  match r.fts.lookup field with
  | some s => strMatch contains s a == strMatch contains s b
  | none => true

/-! Concrete fixtures used by the counterexamples and witnesses below. -/

/-- An Episode-scoped model with a boolean field and a plain string field. -/
def flagsModel : ModelDef :=
  { name := "Flags", isEpisodeSub := true, boolFields := ["urgent"],
    rows := [ { owner := 1, bools := [("urgent", true)], plains := [("status", "open")] },
              { owner := 2, bools := [("urgent", false)], plains := [("status", "open")] } ] }

/-- Two episodes of one patient, with `flagsModel` rows attached. -/
def flagsDB : DB :=
  { episodes := [(1, 100), (2, 100)], models := [flagsModel] }

/-- Criterion matching exactly episode 1 (its `urgent` flag is true). -/
def urgentQ : Criterion := ⟨"flags", "urgent", "Equals", "true", "and"⟩

/-- Criterion matching episodes 1 and 2, carrying the `not` combinator. -/
def statusNotQ : Criterion := ⟨"flags", "status", "Equals", "open", "not"⟩

/-- An Episode-scoped model with one boolean field, one truthy and one falsy
row. -/
def labTestModel : ModelDef :=
  { name := "LabTest", isEpisodeSub := true, boolFields := ["positive"],
    rows := [ { owner := 1, bools := [("positive", true)] },
              { owner := 2, bools := [("positive", false)] } ] }

/-- Episode 1 has a truthy `positive`, episode 2 a falsy one. -/
def labDB : DB :=
  { episodes := [(1, 10), (2, 20)], models := [labTestModel] }

/-- An Episode-scoped model with a hybrid `condition` field: episode 1 has a
foreign-key reference named `influenza`, episode 2 a free-text value `flu`. -/
def diagnosisModel : ModelDef :=
  { name := "Diagnosis", isEpisodeSub := true,
    fkorftFields := [("condition", "conditionvocab")],
    rows := [ { owner := 1, fks := [("condition", "influenza")] },
              { owner := 2, fts := [("condition", "flu")] } ] }

/-- Synonym table maps alias `flu` to canonical `influenza`. -/
def diagnosisDB : DB :=
  { episodes := [(1, 10), (2, 20)], models := [diagnosisModel],
    synonyms := [("conditionvocab", "flu", "influenza")] }

/-- Like `diagnosisModel` but the stored free-text value matches neither the
alias nor the canonical name. -/
def diagnosisModel2 : ModelDef :=
  { name := "Diagnosis", isEpisodeSub := true,
    fkorftFields := [("condition", "conditionvocab")],
    rows := [ { owner := 1, fks := [("condition", "influenza")] },
              { owner := 2, fts := [("condition", "sniffles")] } ] }

/-- Like `diagnosisDB` but built over `diagnosisModel2`. -/
def diagnosisDB2 : DB :=
  { episodes := [(1, 10), (2, 20)], models := [diagnosisModel2],
    synonyms := [("conditionvocab", "flu", "influenza")] }

/-- A Patient-scoped model with a boolean field, one row for Patient 10. -/
def demographicsBoolModel : ModelDef :=
  { name := "Demographics", isPatientSub := true, boolFields := ["alive"],
    rows := [ { owner := 10, bools := [("alive", true)] } ] }

/-- Patient 10 owns Episodes 1 and 2 and has a truthy `alive` row. -/
def demographicsBoolDB : DB :=
  { episodes := [(1, 10), (2, 10)], models := [demographicsBoolModel] }

/-- Two generic registered models (neither Patient- nor Episode-scoped)
sharing the bare lowercased name `protocol`. -/
def protocolA : ModelDef := { name := "Protocol" }

/-- A second distinct generic model with the same name. -/
def protocolB : ModelDef := { name := "Protocol", rows := [{ owner := 99 }] }

/-- An Episode-scoped subrecord model with the same name. -/
def protocolS : ModelDef := { name := "Protocol", isEpisodeSub := true }

/-- An Episode-scoped model with a date field; episode 3 is dated exactly
1 June 2020. -/
def appointmentModel : ModelDef :=
  { name := "Appointment", isEpisodeSub := true,
    dateFields := ["date_of_appointment"],
    rows := [ { owner := 3, dates := [("date_of_appointment", ⟨2020, 6, 1⟩)] } ] }

/-- One episode, dated exactly 1 June 2020. -/
def appointmentDB : DB :=
  { episodes := [(3, 30)], models := [appointmentModel] }

/-- Date criterion: Before 01/06/2020. -/
def beforeQ : Criterion := ⟨"appointment", "date_of_appointment", "Before", "01/06/2020", "and"⟩

/-- Episode 7 carries a historical (inactive) `mine` tagging; episode 8 an
active tagging under a different name. -/
def taggedDB : DB :=
  { taggings := [(7, "mine", false), (8, "other", true)] }

/-- Tags criterion naming the `mine` tag. -/
def tagsQ : Criterion := ⟨"tags", "mine", "Equals", "", "and"⟩

/-- A Patient-scoped plain-field model with TWO rows for Patient 10, both
matching `name = john`, so the un-deduplicated Patient filter yields the
patient twice and the expansion lists each of their Episodes twice. -/
def dupDemographicsModel : ModelDef :=
  { name := "Demographics", isPatientSub := true,
    rows := [ { owner := 10, plains := [("name", "john")] },
              { owner := 10, plains := [("name", "john")] } ] }

/-- Patient 10 owns Episodes 5 and 6 and has two identical matching rows. -/
def dupDemographicsDB : DB :=
  { episodes := [(5, 10), (6, 10)], models := [dupDemographicsModel] }

/-- Plain criterion matched by both duplicate demographics rows. -/
def dupNameQ : Criterion := ⟨"demographics", "name", "Equals", "john", "and"⟩

/-! Basic lemmas about the Python-set model. -/

theorem contains_eq_true_iff {l : List Nat} {x : Nat} :
    l.contains x = true ↔ x ∈ l := by
  simp [List.contains, List.elem_iff]

theorem mem_pySet {l : List Nat} {x : Nat} : x ∈ pySet l ↔ x ∈ l :=
  List.mem_dedup

theorem toFinset_pySet (l : List Nat) : (pySet l).toFinset = l.toFinset := by
  ext x
  simp [pySet, List.mem_dedup]

theorem toFinset_pyIntersection (a b : List Nat) :
    (pyIntersection a b).toFinset = a.toFinset ∩ b.toFinset := by
  ext x
  simp [pyIntersection, List.mem_filter, contains_eq_true_iff]

theorem toFinset_pyUnion (a b : List Nat) :
    (pyUnion a b).toFinset = a.toFinset ∪ b.toFinset := by
  ext x
  simp [pyUnion, List.mem_filter, contains_eq_true_iff]
  tauto

theorem toFinset_pyDifference (a b : List Nat) :
    (pyDifference a b).toFinset = a.toFinset \ b.toFinset := by
  ext x
  simp [pyDifference, List.mem_filter, contains_eq_true_iff]

theorem nodup_pySet (l : List Nat) : (pySet l).Nodup :=
  List.nodup_dedup l

theorem nodup_pyIntersection {a : List Nat} (b : List Nat) (ha : a.Nodup) :
    (pyIntersection a b).Nodup :=
  ha.filter _

theorem nodup_pyDifference {a : List Nat} (b : List Nat) (ha : a.Nodup) :
    (pyDifference a b).Nodup :=
  ha.filter _

theorem nodup_pyUnion {a b : List Nat} (ha : a.Nodup) (hb : b.Nodup) :
    (pyUnion a b).Nodup := by
  refine ha.append (hb.filter _) ?_
  intro x hxa hxb
  have hx := List.mem_filter.mp hxb
  simp [contains_eq_true_iff] at hx
  exact hx.2 hxa

/-- Membership in the row filters used by all resolvers. -/
theorem mem_filterRows {rows : List SubRow} {pred : SubRow → Bool} {e : Nat} :
    e ∈ rows.filterMap (fun r => if pred r then some r.owner else none) ↔
      ∃ r ∈ rows, pred r = true ∧ r.owner = e := by
  simp only [List.mem_filterMap]
  constructor
  · rintro ⟨r, hr, hsome⟩
    by_cases hp : pred r = true
    · rw [if_pos hp] at hsome
      exact ⟨r, hr, hp, Option.some.inj hsome⟩
    · rw [if_neg hp] at hsome
      cases hsome
  · rintro ⟨r, hr, hp, rfl⟩
    exact ⟨r, hr, by rw [if_pos hp]⟩

/-- A match on an optional stored date is true exactly when a date is stored
and satisfies the comparison. -/
theorem matchDate_eq_true_iff {r : SubRow} {field : String} {p : PyDate → Bool} :
    (match r.dates.lookup field with
     | some d => p d
     | none => false) = true ↔
      ∃ d, r.dates.lookup field = some d ∧ p d = true := by
  cases h : r.dates.lookup field <;> simp [h]

/-! Lemmas about the combination fold. -/

theorem foldlM_cons_combineStep (w : List Nat) (p : String × List Nat)
    (ps : List (String × List Nat)) :
    (p :: ps).foldlM combineStep w =
      combineStep w p >>= fun w' => ps.foldlM combineStep w' := by
  simp [List.foldlM]

theorem nodup_combineStep {w : List Nat} {ce : String × List Nat}
    {w' : List Nat} (hw : w.Nodup) (h : combineStep w ce = .ok w') :
    w'.Nodup := by
  unfold combineStep at h
  split at h
  · exact (Except.ok.inj h) ▸ nodup_pyIntersection w (nodup_pySet ce.2)
  · split at h
    · exact (Except.ok.inj h) ▸ nodup_pyUnion (nodup_pySet ce.2) hw
    · split at h
      · exact (Except.ok.inj h) ▸ nodup_pyDifference w (nodup_pySet ce.2)
      · cases h

theorem foldlM_combineStep_nodup :
    ∀ (pairs : List (String × List Nat)) (w l : List Nat),
      w.Nodup → pairs.foldlM combineStep w = .ok l → l.Nodup := by
  intro pairs
  induction pairs with
  | nil =>
    intro w l hw h
    exact (Except.ok.inj h) ▸ hw
  | cons p ps ih =>
    intro w l hw h
    rw [foldlM_cons_combineStep] at h
    rcases hstep : combineStep w p with e | w'
    · rw [hstep] at h
      exact Except.noConfusion h
    · rw [hstep] at h
      exact ih w' l (nodup_combineStep hw hstep) h

theorem foldlM_combineStep_toFinset :
    ∀ (pairs : List (String × List Nat)) (w l : List Nat),
      pairs.foldlM combineStep w = .ok l →
      l.toFinset = foldFinset w.toFinset (pairs.map fun p => (p.1, p.2.toFinset)) := by
  intro pairs
  induction pairs with
  | nil =>
    intro w l h
    have h' := Except.ok.inj h
    subst h'
    simp [foldFinset]
  | cons p ps ih =>
    obtain ⟨c, s⟩ := p
    intro w l h
    rw [foldlM_cons_combineStep] at h
    rcases hstep : combineStep w (c, s) with e | w'
    · rw [hstep] at h
      exact Except.noConfusion h
    · rw [hstep] at h
      have hrec := ih w' l h
      rw [hrec]
      simp only [List.map_cons, foldFinset]
      congr 1
      unfold combineStep at hstep
      split at hstep
      case isTrue hand =>
        rw [if_pos hand, ← Except.ok.inj hstep, toFinset_pyIntersection,
          toFinset_pySet, Finset.inter_comm]
      case isFalse hand =>
        split at hstep
        case isTrue hor =>
          rw [if_neg hand, if_pos hor, ← Except.ok.inj hstep, toFinset_pyUnion,
            toFinset_pySet, Finset.union_comm]
        case isFalse hor =>
          split at hstep
          case isTrue hnot =>
            rw [if_neg hand, if_neg hor, ← Except.ok.inj hstep,
              toFinset_pyDifference, toFinset_pySet]
          case isFalse hnot => cases hstep

theorem mapMatches_cons (db : DB) (c0 : Criterion) (cs : List Criterion)
    (e0 : List Nat) (pairs : List (String × List Nat))
    (h0 : episodes_for_criteria db c0 = .ok e0)
    (hcs : mapMatches db cs = .ok pairs) :
    mapMatches db (c0 :: cs) = .ok ((c0.combine, e0) :: pairs) := by
  have h1 : criterionMatch db c0 = .ok (c0.combine, e0) := by
    simp [criterionMatch, h0, Except.map]
  simp only [mapMatches, h1, hcs]
  rfl

/-- C1, counterexample: the claim's own fold (`combineSpecFold`, `not` =
accumulated set minus this pair's set) disagrees with `get_episodes` on a
two-criterion query. The first criterion resolves to `{1}`, the second —
carrying `not` — to `{1, 2}`; the claimed fold yields `{1} \ {1, 2} = ∅`,
but the code returns `{2} = {1, 2} \ {1}`. -/
theorem claim1_counterexample :
    episodes_for_criteria flagsDB urgentQ = Except.ok [1] ∧
    episodes_for_criteria flagsDB statusNotQ = Except.ok [1, 2] ∧
    get_episodes flagsDB [urgentQ, statusNotQ] = Except.ok [2] ∧
    combineSpecFold [("and", [1]), ("not", [1, 2])] = [] :=
  ⟨rfl, rfl, rfl, rfl⟩

/-- C1, amended: for every query of two or more criteria, `get_episodes`
computes a left fold whose seed is the first criterion's result set (its own
combinator ignored); `and` applies set intersection and `or` set union, but
`not` applies set difference taken as THIS pair's set minus the accumulated
set. -/
theorem claim1_amended (db : DB) (c0 : Criterion) (cs : List Criterion)
    (e0 : List Nat) (pairs : List (String × List Nat)) (res : List Nat)
    (h0 : episodes_for_criteria db c0 = .ok e0)
    (hcs : mapMatches db cs = .ok pairs)
    (hres : get_episodes db (c0 :: cs) = .ok res) :
    res.toFinset = foldFinset e0.toFinset (pairs.map fun p => (p.1, p.2.toFinset)) := by
  unfold get_episodes at hres
  rw [mapMatches_cons db c0 cs e0 pairs h0 hcs] at hres
  have hfold := foldlM_combineStep_toFinset pairs (pySet e0) res hres
  rwa [toFinset_pySet] at hfold

/-- Witness for the amended C1 at a concrete query containing a `not`
criterion. -/
theorem claim1_witness :
    episodes_for_criteria flagsDB urgentQ = Except.ok [1] ∧
    mapMatches flagsDB [statusNotQ] = Except.ok [("not", [1, 2])] ∧
    get_episodes flagsDB [urgentQ, statusNotQ] = Except.ok [2] ∧
    ([2] : List Nat).toFinset =
      foldFinset ([1] : List Nat).toFinset [("not", ([1, 2] : List Nat).toFinset)] :=
  ⟨rfl, rfl, rfl,
    claim1_amended flagsDB urgentQ [statusNotQ] [1] [("not", [1, 2])] [2] rfl rfl rfl⟩

/-- C7: the empty query returns the empty result set, not an error. -/
theorem claim7_empty_query (db : DB) : get_episodes db [] = Except.ok [] :=
  rfl

/-- C10: whenever `get_episodes` succeeds, its result contains each Episode
at most once, even though an individual criterion's resolver may produce a
list with duplicate entries. -/
theorem claim10_result_nodup (db : DB) (query : List Criterion) (l : List Nat)
    (h : get_episodes db query = .ok l) : l.Nodup := by
  unfold get_episodes at h
  rcases hm : mapMatches db query with e | ms
  · rw [hm] at h
    exact Except.noConfusion h
  · rw [hm] at h
    cases ms with
    | nil =>
      have h' := Except.ok.inj h
      exact h' ▸ List.nodup_nil
    | cons first rest =>
      exact foldlM_combineStep_nodup rest (pySet first.2) l (nodup_pySet _) h

/-- Witness for C10: the duplicated Patient-scoped rows make the criterion's
resolver return `[5, 6, 5, 6]`, yet the final result is the duplicate-free
`[5, 6]`. -/
theorem claim10_witness :
    episodes_for_criteria dupDemographicsDB dupNameQ = Except.ok [5, 6, 5, 6] ∧
    get_episodes dupDemographicsDB [dupNameQ] = Except.ok [5, 6] ∧
    ([5, 6] : List Nat).Nodup :=
  ⟨rfl, rfl, claim10_result_nodup dupDemographicsDB [dupNameQ] [5, 6] rfl⟩

/-- Boolean criterion with the capitalised literal `TRUE`. -/
def trueUpperQ : Criterion := ⟨"labtest", "positive", "Equals", "TRUE", "and"⟩

/-- Boolean criterion with the lowercase literal `true`. -/
def trueLowerQ : Criterion := ⟨"labtest", "positive", "Equals", "true", "and"⟩

/-- C2, counterexample: the literal `"TRUE"` does NOT select the record whose
field is true — it selects the falsy record (episode 2), while only the exact
lowercase `"true"` selects the truthy record (episode 1). The third conjunct
records the stored field values. -/
theorem claim2_counterexample :
    episodes_for_criteria labDB trueUpperQ = Except.ok [2] ∧
    episodes_for_criteria labDB trueLowerQ = Except.ok [1] ∧
    (labTestModel.rows.map fun r => (r.owner, r.bools.lookup "positive")) =
      [(1, some true), (2, some false)] :=
  ⟨rfl, rfl, rfl⟩

/-- C2, amended: the boolean value is parsed case-SENSITIVELY — exactly the
literal `"true"` selects records whose field is true, and any other literal
(including `"TRUE"` and `"True"`) selects records whose field is false: a
matched episode is one owning a row whose stored boolean equals
`query == "true"`. -/
theorem claim2_amended (db : DB) (q : Criterion) (field : String)
    (M : ModelDef) (l : List Nat)
    (hM : db.models.find?
        (fun m => strLower m.name ==
            strReplace (strLower (strReplace q.column ' ' ['_'])) '_' [] &&
          m.isEpisodeSub) = some M)
    (hl : episodes_for_boolean_fields db q field = .ok l) :
    ∀ e, e ∈ l ↔
      ∃ r ∈ M.rows, r.owner = e ∧
        r.bools.lookup field = some (q.query == "true") := by
  simp only [episodes_for_boolean_fields, episodeFilterRows, hM,
    Except.ok.injEq] at hl
  subst hl
  intro e
  rw [mem_filterRows]
  constructor
  · rintro ⟨r, hr, hp, ho⟩
    refine ⟨r, hr, ho, ?_⟩
    simpa using hp
  · rintro ⟨r, hr, ho, hv⟩
    exact ⟨r, hr, by simp [hv], ho⟩

/-- Witness for the amended C2: with value `TRUE`, episode 2 is selected and
its stored `positive` equals `some ("TRUE" == "true")`, i.e. `some false`. -/
theorem claim2_witness :
    episodes_for_boolean_fields labDB trueUpperQ "positive" = Except.ok [2] ∧
    (2 ∈ ([2] : List Nat) ↔
      ∃ r ∈ labTestModel.rows, r.owner = 2 ∧
        r.bools.lookup "positive" = some ("TRUE" == "true")) :=
  ⟨rfl, claim2_amended labDB trueUpperQ "positive" labTestModel [2] rfl rfl 2⟩

/-- C6: both date bounds are inclusive. `dateLe` is reflexive and coincides
with the chronological less-or-equal; a `Before` criterion selects exactly
the episodes owning a row whose stored date is `≤` the parsed value, and an
`After` criterion those with stored date `≥` the parsed value. -/
theorem claim6_date_inclusive_bounds (db : DB) (q : Criterion) (field : String)
    (v : PyDate) (M : ModelDef)
    (hv : parseDate q.query = some v)
    (hM : db.models.find?
        (fun m => strLower m.name == strLower (strReplace q.column ' ' []) &&
          m.isEpisodeSub) = some M) :
    (∀ d, dateLe d d = true) ∧
    (∀ d₁ d₂, dateLe d₁ d₂ = true ↔
      (d₁.year < d₂.year ∨
        (d₁.year = d₂.year ∧
          (d₁.month < d₂.month ∨
            (d₁.month = d₂.month ∧ d₁.day ≤ d₂.day))))) ∧
    (q.queryType = "Before" → ∀ l, episodes_for_date_fields db q field = .ok l →
      ∀ e, e ∈ l ↔
        ∃ r ∈ M.rows, r.owner = e ∧
          ∃ d, r.dates.lookup field = some d ∧ dateLe d v = true) ∧
    (q.queryType = "After" → ∀ l, episodes_for_date_fields db q field = .ok l →
      ∀ e, e ∈ l ↔
        ∃ r ∈ M.rows, r.owner = e ∧
          ∃ d, r.dates.lookup field = some d ∧ dateLe v d = true) := by
  refine ⟨?_, ?_, ?_, ?_⟩
  · intro d
    simp [dateLe]
  · intro d₁ d₂
    simp [dateLe]
  · intro hqt l hl e
    simp only [episodes_for_date_fields, episodeFilterRows, hv, hqt, hM,
      beq_self_eq_true, if_true, Except.ok.injEq] at hl
    subst hl
    rw [mem_filterRows]
    constructor
    · rintro ⟨r, hr, hp, ho⟩
      exact ⟨r, hr, ho, matchDate_eq_true_iff.mp hp⟩
    · rintro ⟨r, hr, ho, hd⟩
      exact ⟨r, hr, matchDate_eq_true_iff.mpr hd, ho⟩
  · intro hqt l hl e
    simp only [episodes_for_date_fields, episodeFilterRows, hv, hqt, hM,
      Except.ok.injEq] at hl
    subst hl
    rw [mem_filterRows]
    constructor
    · rintro ⟨r, hr, hp, ho⟩
      refine ⟨r, hr, ho, ?_⟩
      have := matchDate_eq_true_iff.mp hp
      simpa using this
    · rintro ⟨r, hr, ho, hd⟩
      refine ⟨r, hr, ?_, ho⟩
      apply matchDate_eq_true_iff.mpr
      simpa using hd

/-- Witness for C6 at the claim's own instance: a `Before 01/06/2020`
criterion includes episode 3, dated exactly 1 June 2020 (and `dateLe` holds
reflexively at that date). -/
theorem claim6_witness :
    parseDate "01/06/2020" = some ⟨2020, 6, 1⟩ ∧
    dateLe ⟨2020, 6, 1⟩ ⟨2020, 6, 1⟩ = true ∧
    episodes_for_date_fields appointmentDB beforeQ "date_of_appointment" =
      Except.ok [3] ∧
    (3 ∈ ([3] : List Nat) ↔
      ∃ r ∈ appointmentModel.rows, r.owner = 3 ∧
        ∃ d, r.dates.lookup "date_of_appointment" = some d ∧
          dateLe d ⟨2020, 6, 1⟩ = true) :=
  ⟨rfl,
    (claim6_date_inclusive_bounds appointmentDB beforeQ "date_of_appointment"
      ⟨2020, 6, 1⟩ appointmentModel rfl rfl).1 ⟨2020, 6, 1⟩,
    rfl,
    (claim6_date_inclusive_bounds appointmentDB beforeQ "date_of_appointment"
      ⟨2020, 6, 1⟩ appointmentModel rfl rfl).2.2.1 rfl [3] rfl 3⟩

/-- Patient-scoped boolean criterion on `demographics.alive`. -/
def aliveQ : Criterion := ⟨"demographics", "alive", "Equals", "true", "and"⟩

/-- C4, counterexample: a boolean criterion on a Patient-scoped record type is
NOT resolved by matching Patients and expanding to their Episodes — the
resolver filters `Episode.objects` through a relation that only Episode-scoped
models provide, so it fails; in particular the matched Patient's two Episodes
are not returned. -/
theorem claim4_counterexample :
    episodes_for_criteria demographicsBoolDB aliveQ =
      Except.error "FieldError: demographics" :=
  rfl

/-- C4, amended: Patient-to-Episode expansion happens only in the hybrid and
plain branches (both materialise the matched Patients and emit every Episode
of each matched Patient, via `expandPatients`); the boolean and date
resolvers instead filter the Episode relation directly and fail with a
`FieldError` when no Episode-scoped model carries the column's name. -/
theorem claim4_amended :
    (∀ (db : DB) (pats : List Nat) (e : Nat),
        e ∈ expandPatients db pats ↔ ∃ p, p ∈ pats ∧ (e, p) ∈ db.episodes) ∧
    (∀ (db : DB) (q : Criterion) (field : String),
        db.models.find?
            (fun m => strLower m.name ==
                strReplace (strLower (strReplace q.column ' ' ['_'])) '_' [] &&
              m.isEpisodeSub) = none →
        episodes_for_boolean_fields db q field =
          .error ("FieldError: " ++
            strReplace (strLower (strReplace q.column ' ' ['_'])) '_' [])) ∧
    (∀ (db : DB) (q : Criterion) (field : String) (v : PyDate),
        parseDate q.query = some v →
        db.models.find?
            (fun m => strLower m.name == strLower (strReplace q.column ' ' []) &&
              m.isEpisodeSub) = none →
        episodes_for_date_fields db q field =
          .error ("FieldError: " ++ strLower (strReplace q.column ' ' []))) := by
  refine ⟨?_, ?_, ?_⟩
  · intro db pats e
    simp only [expandPatients, episode_set, List.mem_flatMap, List.mem_filterMap]
    constructor
    · rintro ⟨p, hp, ep, hep, hsome⟩
      by_cases h2 : (ep.2 == p) = true
      · rw [if_pos h2] at hsome
        have h1 : ep.1 = e := Option.some.inj hsome
        have h2' : ep.2 = p := by simpa using h2
        refine ⟨p, hp, ?_⟩
        rw [← h1, ← h2']
        simpa using hep
      · rw [if_neg h2] at hsome
        cases hsome
    · rintro ⟨p, hp, hmem⟩
      exact ⟨p, hp, (e, p), hmem, by simp⟩
  · intro db q field h
    simp [episodes_for_boolean_fields, episodeFilterRows, h]
  · intro db q field v hv h
    simp [episodes_for_date_fields, episodeFilterRows, hv, h]

/-- Witness for the amended C4: Patient 10's two Episodes are both produced
by `expandPatients`, and the Patient-scoped boolean criterion errors. -/
theorem claim4_witness :
    (1 ∈ expandPatients demographicsBoolDB [10] ↔
      ∃ p, p ∈ [(10 : Nat)] ∧ ((1 : Nat), p) ∈ demographicsBoolDB.episodes) ∧
    (2 ∈ expandPatients demographicsBoolDB [10] ↔
      ∃ p, p ∈ [(10 : Nat)] ∧ ((2 : Nat), p) ∈ demographicsBoolDB.episodes) ∧
    episodes_for_boolean_fields demographicsBoolDB aliveQ "alive" =
      Except.error "FieldError: demographics" :=
  ⟨claim4_amended.1 demographicsBoolDB [10] 1,
    claim4_amended.1 demographicsBoolDB [10] 2,
    claim4_amended.2.1 demographicsBoolDB aliveQ "alive" rfl⟩

/-- C5: evaluation at the failing input. Two generic registered models share
the bare name `protocol`; the resolution loop silently keeps the FIRST one
instead of failing with `AmbiguousTypeError`; the tie-break half of the claim
does hold — a lone subrecord candidate is preferred over a generic one on
whichever side it appears. -/
theorem claim5_ambiguity_eval :
    resolveMod [protocolA, protocolB] "protocol" = some protocolA ∧
    protocolA ≠ protocolB ∧
    protocolA.isEpisodeSub = false ∧ protocolA.isPatientSub = false ∧
    protocolB.isEpisodeSub = false ∧ protocolB.isPatientSub = false ∧
    resolveMod [protocolA, protocolS] "protocol" = some protocolS ∧
    resolveMod [protocolS, protocolB] "protocol" = some protocolS := by
  refine ⟨rfl, ?_, rfl, rfl, rfl, rfl, rfl, rfl⟩
  decide

/-- C8: a criterion whose column resolves to the virtual type `tags` is
answered by `ever_tagged` on the raw field string, and an Episode is in that
result exactly when some tagging row — active or historical — links it to the
named tag. -/
theorem claim8_tags_ever_tagged (db : DB) (q : Criterion)
    (h : strLower (strReplace (strReplace q.column ' ' []) '_' []) = "tags") :
    episodes_for_criteria db q = .ok (ever_tagged db q.field) ∧
    ∀ e, e ∈ ever_tagged db q.field ↔
      ∃ active, (e, q.field, active) ∈ db.taggings := by
  constructor
  · simp [episodes_for_criteria, h, taggingModel]
  · intro e
    simp only [ever_tagged, List.mem_filterMap]
    constructor
    · rintro ⟨t, ht, hsome⟩
      by_cases h2 : (t.2.1 == q.field) = true
      · rw [if_pos h2] at hsome
        have h1 : t.1 = e := Option.some.inj hsome
        have h2' : t.2.1 = q.field := by simpa using h2
        refine ⟨t.2.2, ?_⟩
        rw [← h1, ← h2']
        simpa using ht
      · rw [if_neg h2] at hsome
        cases hsome
    · rintro ⟨active, hmem⟩
      exact ⟨(e, q.field, active), hmem, by simp⟩

/-- Witness for C8: the `mine` tag query returns exactly episode 7, whose
only tagging row is historical (`active = false`). -/
theorem claim8_witness :
    episodes_for_criteria taggedDB tagsQ = Except.ok (ever_tagged taggedDB "mine") ∧
    ever_tagged taggedDB "mine" = [7] ∧
    ((7, "mine", false) ∈ taggedDB.taggings) ∧
    (7 ∈ ever_tagged taggedDB "mine" ↔
      ∃ active, ((7 : Nat), "mine", active) ∈ taggedDB.taggings) :=
  ⟨(claim8_tags_ever_tagged taggedDB tagsQ rfl).1, rfl, by simp [taggedDB],
    (claim8_tags_ever_tagged taggedDB tagsQ rfl).2 7⟩

/-- The empty record store. -/
def emptyDB : DB := {}

/-- A CSV/archive writer collaborator that always fails. -/
def failingWriter : List Nat → Except String String :=
  fun _ => .error "disk full"

/-- C9: when the extraction itself succeeds and the external CSV/archive
writer fails, `DownloadSearchView.post` propagates the writer's error; it
never swallows the failure and answers with a file. -/
theorem claim9_writer_failure (db : DB) (criteria : List Criterion)
    (writer : List Nat → Except String String) (eps : List Nat) (err : String)
    (hrun : get_episodes db criteria = .ok eps)
    (hw : writer eps = .error err) :
    downloadSearchViewPost db criteria writer = .error err := by
  unfold downloadSearchViewPost
  rw [hrun]
  show (writer eps >>= fun fname => pure fname) = Except.error err
  rw [hw]
  rfl

/-- Witness for C9: the empty query extracts successfully, and the failing
writer's error surfaces unchanged. -/
theorem claim9_witness :
    get_episodes emptyDB [] = Except.ok [] ∧
    failingWriter [] = Except.error "disk full" ∧
    downloadSearchViewPost emptyDB [] failingWriter = Except.error "disk full" :=
  ⟨rfl, rfl, claim9_writer_failure emptyDB [] failingWriter [] "disk full" rfl rfl⟩

/-- The Episode filter depends on its predicate only through the rows of the
registered models. -/
theorem episodeFilterRows_congr (db : DB) (rel : String)
    {p₁ p₂ : SubRow → Bool}
    (h : ∀ m ∈ db.models, ∀ r ∈ m.rows, p₁ r = p₂ r) :
    episodeFilterRows db rel p₁ = episodeFilterRows db rel p₂ := by
  unfold episodeFilterRows
  cases hf : db.models.find? (fun m => strLower m.name == rel && m.isEpisodeSub) with
  | none => rfl
  | some M =>
    have hm := List.mem_of_find?_eq_some hf
    have hrows : (M.rows.filterMap fun r => if p₁ r then some r.owner else none) =
        M.rows.filterMap fun r => if p₂ r then some r.owner else none :=
      List.filterMap_congr fun r hr => by rw [h M hm r hr]
    exact congrArg Except.ok hrows

/-- The Patient filter depends on its predicate only through the rows of the
registered models. -/
theorem patientFilterRows_congr (db : DB) (rel : String)
    {p₁ p₂ : SubRow → Bool}
    (h : ∀ m ∈ db.models, ∀ r ∈ m.rows, p₁ r = p₂ r) :
    patientFilterRows db rel p₁ = patientFilterRows db rel p₂ := by
  unfold patientFilterRows
  cases hf : db.models.find? (fun m => strLower m.name == rel && m.isPatientSub) with
  | none => rfl
  | some M =>
    have hm := List.mem_of_find?_eq_some hf
    have hrows : (M.rows.filterMap fun r => if p₁ r then some r.owner else none) =
        M.rows.filterMap fun r => if p₂ r then some r.owner else none :=
      List.filterMap_congr fun r hr => by rw [h M hm r hr]
    exact congrArg Except.ok hrows

/-- Hybrid criterion with the synonym value `flu`. -/
def fluQ : Criterion := ⟨"diagnosis", "condition", "Equals", "flu", "and"⟩

/-- Hybrid criterion with the canonical value `influenza`. -/
def influenzaQ : Criterion := ⟨"diagnosis", "condition", "Equals", "influenza", "and"⟩

/-- C3, counterexample: with the synonym value `flu` the hybrid resolver
returns episodes 1 AND 2 — the free-text half still matches the literal
`flu` on episode 2 — while the canonical value `influenza` returns only
episode 1. The two result sets differ, refuting the claim. -/
theorem claim3_counterexample :
    episodes_for_criteria diagnosisDB fluQ = Except.ok [1, 2] ∧
    episodes_for_criteria diagnosisDB influenzaQ = Except.ok [1] :=
  ⟨rfl, rfl⟩

/-- C3, amended: the Synonym substitution feeds only the foreign-key-name
half of the hybrid match; the free-text half still matches the ORIGINAL
literal. Consequently a known-synonym query resolves to the same result set
as the canonical name exactly under the proviso that no stored free-text
value distinguishes the two literals (and the canonical name is not itself a
recorded alias). -/
theorem claim3_amended (db : DB) (q : Criterion) (field : String)
    (contains : ContainsKind) (M : ModelDef) (canon : String)
    (hsyn : lookupSynonym db (vocabOf M field) q.query = some canon)
    (hcanon : lookupSynonym db (vocabOf M field) canon = none)
    (hft : ∀ m ∈ db.models, ∀ r ∈ m.rows,
      ftAgrees field contains q.query canon r = true) :
    episodes_for_fkorft_fields db q field contains M =
      episodes_for_fkorft_fields db { q with query := canon } field contains M := by
  have hpred : ∀ m ∈ db.models, ∀ r ∈ m.rows,
      ftPredOf field contains q.query r = ftPredOf field contains canon r := by
    intro m hm r hr
    have hagree := hft m hm r hr
    unfold ftAgrees at hagree
    unfold ftPredOf
    cases hx : r.fts.lookup field with
    | none => simp [hx]
    | some s =>
      rw [hx] at hagree
      simp only [hx]
      simpa using hagree
  unfold episodes_for_fkorft_fields
  simp only [hsyn, hcanon]
  rw [episodeFilterRows_congr db _ hpred, patientFilterRows_congr db _ hpred]

/-- Witness for the amended C3: over `diagnosisDB2` (whose only free-text
value matches neither literal) the synonym query and the canonical query
coincide. -/
theorem claim3_witness :
    lookupSynonym diagnosisDB2 (vocabOf diagnosisModel2 "condition") "flu" =
      some "influenza" ∧
    lookupSynonym diagnosisDB2 (vocabOf diagnosisModel2 "condition") "influenza" =
      none ∧
    episodes_for_fkorft_fields diagnosisDB2 fluQ "condition"
        ContainsKind.iexact diagnosisModel2 =
      episodes_for_fkorft_fields diagnosisDB2 influenzaQ "condition"
        ContainsKind.iexact diagnosisModel2 :=
  ⟨rfl, rfl,
    claim3_amended diagnosisDB2 fluQ "condition" ContainsKind.iexact
      diagnosisModel2 "influenza" rfl rfl (by decide)⟩
